import Mathlib

/-!
Shallow embedding of `src/sphinx-tr.py`, the sphinx-translate catalog
translation pipeline.

Pure string manipulation (the post-processing replacement chain of
`parse_translated_entry`, the `os.path` helpers `dirname` and `splitext`)
is translated directly from the source.  Filesystem effects are modelled by
an explicit `FS` state threaded through each step, and Python exceptions by
an `Option PyErr` result component.  External collaborators — the babel
catalog codec, the lxml xpath extraction, the HTTP transport, the random
throttling sleep — enter as explicit parameters, exactly as the spec treats
them (interfaces only).
-/

namespace SphinxTr

/-! ### Python string primitives -/

/-- Python `pat in s` on character lists: true iff `pat` occurs as a
contiguous substring of `s`. -/
def containsSub : List Char → List Char → Bool
  | [], pat => pat.isEmpty
  | s@(_ :: rest), pat => pat.isPrefixOf s || containsSub rest pat

/-- Python `str.replace`, fuel-indexed: replaces every non-overlapping
occurrence of `pat` in `s` left to right.  Each step consumes at least one
character of `s` when `pat` is nonempty, so `fuel = s.length` computes the
full replacement; the fuel only serves to make the recursion structural. -/
def replaceAux : Nat → List Char → List Char → List Char → List Char
  | 0, s, _, _ => s
  | _ + 1, [], _, _ => []
  | fuel + 1, c :: rest, pat, rep =>
    if pat.isPrefixOf (c :: rest) then
      rep ++ replaceAux fuel ((c :: rest).drop pat.length) pat rep
    else
      c :: replaceAux fuel rest pat rep

/-- Python `s.replace(pat, rep)` for the nonempty patterns appearing in
`parse_translated_entry` (the source never calls replace with an empty
pattern). -/
def pyReplace (s pat rep : String) : String :=
  if pat.data.isEmpty then s else ⟨replaceAux s.data.length s.data pat.data rep.data⟩

/-! ### Entry post-processor (`parse_translated_entry`, lines 63-83) -/

/-- The fixed correction sequence of `parse_translated_entry`
(`src/sphinx-tr.py`, lines 70-83), in source order. -/
def corrections : List (String × String) :=
  [(" + ", " "), ("C #", "C#"), ("C ++", "C++"), ("+-+", "-"), (" :: ", "::"),
   ("! =", "!="), ("> =", ">="), (" +", ""), (" / ", "/"), ("../ ", "../"),
   (" // ", "//"), (": doc: `", ":doc:`"), (": ref: `", ":ref:`"), ("` _", "`_")]

/-- Chain of `.replace` calls applied to the extracted text node. -/
def applyCorrections (t : String) : String :=
  corrections.foldl (fun acc p => pyReplace acc p.1 p.2) t

/-- `parse_translated_entry`: the lxml document construction and the xpath
query for text nodes under the div with class "t0" and dir "ltr" are
external (lxml); the model receives `item`, the list of text nodes the
query returns.  An absent element yields the empty list, hence the empty
string; otherwise the last text node goes through the correction chain. -/
def parse_translated_entry (item : List String) : String :=
  match item.getLast? with
  | none => ""
  | some t => applyCorrections t

/-! ### Backend call (`translate_entry`, lines 87-106) -/

/-- `SphinxTranslateException(status_code, message)` (lines 15-18): the
stored message is `str(status_code)` followed by ": " and the reason. -/
structure SphinxTranslateException where
  message : String
deriving DecidableEq

/-- The `SphinxTranslateException.__init__` formatting. -/
def mkException (status_code : Nat) (message : String) : SphinxTranslateException :=
  ⟨toString status_code ++ ": " ++ message⟩

/-- Transport-level view of one HTTP response from the scraped backend. -/
structure HttpResponse where
  status : Nat
  reason : String
  body : String
deriving DecidableEq

/-- `translate_entry` (lines 87-106): after the random throttling sleep
(which does not affect the result), the GET response is checked: any status
other than 200 raises `SphinxTranslateException(status, reason)`; otherwise
the response body text is returned. -/
def translate_entry (resp : HttpResponse) : Except SphinxTranslateException String :=
  if resp.status ≠ 200 then .error (mkException resp.status resp.reason)
  else .ok resp.body

/-! ### Message entries and the per-entry loop of `translate_files` -/

/-- One catalog message entry, as in the spec data model: translation key
`id` and possibly empty translated `string`. -/
structure Message where
  id : String
  string : String
deriving DecidableEq

/-- Body of the per-entry loop of `translate_files` (lines 127-138) for one
message: the skip test (continue when `msg.string` is truthy or `msg.id` is
falsy) and otherwise the backend call whose post-processed result is
assigned to `msg.string`.  The returned Bool records whether the backend
was called for this entry (when it is `true`, `need_write` is set). -/
def step_msg (backend : String → String) (msg : Message) : Message × Bool :=
  if msg.string ≠ "" ∨ msg.id = "" then (msg, false)
  else ({ msg with string := backend msg.id }, true)

/-- The whole entry loop over a loaded catalog, in stored order. -/
def translate_catalog (backend : String → String) (cat : List Message) :
    List (Message × Bool) :=
  cat.map (step_msg backend)

/-! ### `os.path` helpers -/

/-- Index of the last occurrence of `c` in `cs`, if any. -/
def lastIdxOf : List Char → Char → Option Nat
  | [], _ => none
  | x :: rest, c =>
    match lastIdxOf rest c with
    | some k => some (k + 1)
    | none => if x = c then some 0 else none

/-- One past the index of the last "/", or 0 when there is none: the point
where `posixpath.dirname` and `posixpath.splitext` cut the path. -/
def slashSplitIdx (cs : List Char) : Nat :=
  match lastIdxOf cs '/' with
  | none => 0
  | some k => k + 1

/-- The `rstrip` step of `posixpath.dirname`: strip trailing slashes unless
the head is empty or consists of slashes only. -/
def rstripSlashes (head : List Char) : List Char :=
  if head ≠ [] ∧ ¬ head.all (fun c => c = '/') then
    (head.reverse.dropWhile (fun c => c = '/')).reverse
  else head

/-- `posixpath.dirname` on character lists: everything up to and including
the last "/" (empty when there is none), with trailing slashes stripped
unless the head consists of slashes only. -/
def dirnameAux (cs : List Char) : List Char :=
  rstripSlashes (cs.take (slashSplitIdx cs))

/-- `os.path.dirname`. -/
def dirname (p : String) : String := ⟨dirnameAux p.data⟩

/-- `os.path.splitext`: split off the extension at the last "." of the last
path component, provided some character strictly between the last "/" and
that dot is not itself a dot (so a leading-dots-only base has no
extension). -/
def splitext (p : String) : String × String :=
  let cs := p.data
  match lastIdxOf cs '.' with
  | none => (p, "")
  | some d =>
    let start := slashSplitIdx cs
    if start ≤ d ∧ (List.range' start (d - start)).any (fun i => cs.getD i ' ' ≠ '.') then
      (⟨cs.take d⟩, ⟨cs.drop d⟩)
    else (p, "")

/-! ### Filesystem state and the catalog store -/

/-- Python exceptions relevant to the modelled operations. -/
inductive PyErr where
  | fileNotFound (path : String)
  | writeError (msg : String)
deriving DecidableEq

/-- Association-list filesystem state: the existing directories and the
files with their content.  `setFile` conses, shadowing earlier entries. -/
structure FS where
  dirs : List String
  files : List (String × String)
deriving DecidableEq

/-- First-match lookup in the file list. -/
def lookupFile : List (String × String) → String → Option String
  | [], _ => none
  | e :: rest, p => if e.1 = p then some e.2 else lookupFile rest p

/-- Drop every entry for path `p`. -/
def removeAll : List (String × String) → String → List (String × String)
  | [], _ => []
  | e :: rest, p => if e.1 = p then removeAll rest p else e :: removeAll rest p

def FS.getFile (fs : FS) (p : String) : Option String := lookupFile fs.files p

def FS.setFile (fs : FS) (p c : String) : FS := ⟨fs.dirs, (p, c) :: fs.files⟩

def FS.removeFile (fs : FS) (p : String) : FS := ⟨fs.dirs, removeAll fs.files p⟩

/-- `os.path.exists` on the modelled state.  The empty string names no file
or directory, matching Python where `os.path.exists("")` is false. -/
def FS.pathExists (fs : FS) (p : String) : Bool :=
  fs.dirs.contains p || (fs.getFile p).isSome

/-- The directory `d` together with the ancestors `os.makedirs` creates
when missing, obtained by iterating `dirname`; the fuel (`d.length` at the
call site) bounds the iteration. -/
def withAncestors : Nat → String → List String
  | 0, _ => []
  | fuel + 1, d =>
    let p := dirname d
    if p = d ∨ p = "" then [d] else d :: withAncestors fuel p

/-- `os.makedirs(d)`: `os.makedirs("")` raises `FileNotFoundError` (its
`mkdir("")` call fails with errno 2); otherwise `d` and its missing
ancestors are created. -/
def os_makedirs (fs : FS) (d : String) : FS × Option PyErr :=
  if d = "" then (fs, some (.fileNotFound d))
  else (⟨fs.dirs ++ withAncestors d.length d, fs.files⟩, none)

/-- The write phase of `dump_po`: `io.open(filename, "wb")` creates or
truncates the file, then `pofile.write_po` runs.  The serialized bytes — or
the codec failure — enter through the `ser` parameter (the babel codec is
external).  On failure the opened, truncated file is left behind and the
error propagates. -/
def dump_write (fs : FS) (filename : String) (ser : Except PyErr String) :
    FS × Option PyErr :=
  let opened := fs.setFile filename ""
  match ser with
  | .ok content => (opened.setFile filename content, none)
  | .error e => (opened, some e)

/-- `dump_po` (lines 51-58): create the parent directory when
`os.path.exists` denies it, then write. -/
def dump_po (fs : FS) (filename : String) (ser : Except PyErr String) :
    FS × Option PyErr :=
  let d := dirname filename
  if fs.pathExists d then dump_write fs filename ser
  else
    match os_makedirs fs d with
    | (fs1, none) => dump_write fs1 filename ser
    | (fs1, some e) => (fs1, some e)

/-- `os.replace(src, dst)`: atomic rename; `src` must exist. -/
def os_replace (fs : FS) (src dst : String) : FS × Option PyErr :=
  match fs.getFile src with
  | some c => ((fs.removeFile src).setFile dst c, none)
  | none => (fs, some (.fileNotFound src))

/-- `os.remove(p)`: raises `FileNotFoundError` when `p` does not exist. -/
def os_remove (fs : FS) (p : String) : FS × Option PyErr :=
  match fs.getFile p with
  | some _ => (fs.removeFile p, none)
  | none => (fs, some (.fileNotFound p))

/-- The save step of `translate_files` (lines 140-150): dump to
`po_file + ".tmp"`, then atomically rename onto `po_file`; on any failure
remove the temporary file and re-raise.  When that removal itself raises,
its error is the one that propagates. -/
def save_catalog (fs : FS) (po_file : String) (ser : Except PyErr String) :
    FS × Option PyErr :=
  let po_file_tmp := po_file ++ ".tmp"
  match dump_po fs po_file_tmp ser with
  | (fs1, none) => os_replace fs1 po_file_tmp po_file
  | (fs1, some e) =>
    match os_remove fs1 po_file_tmp with
    | (fs2, none) => (fs2, some e)
    | (fs2, some e2) => (fs2, some e2)

/-- One full `translate_files` iteration for the loaded catalog `cat_po` of
`po_file` (lines 124-150): run the entry loop, then save only when
`need_write` was set.  `serialize` is the external codec
(`pofile.write_po`).  The result is the final filesystem, the final
catalog, the `need_write` flag, and the propagated error, if any. -/
def process_file (backend : String → String)
    (serialize : List Message → Except PyErr String)
    (fs : FS) (po_file : String) (cat_po : List Message) :
    FS × List Message × Bool × Option PyErr :=
  let results := translate_catalog backend cat_po
  let new_cat := results.map (fun r => r.1)
  let need_write := results.any (fun r => r.2)
  if need_write then
    match save_catalog fs po_file (serialize new_cat) with
    | (fs1, err) => (fs1, new_cat, true, err)
  else (fs, new_cat, false, none)

/-! ### File discovery (`get_po_files`, lines 108-118) -/

/-- A directory tree: direct file names and named subdirectories. -/
inductive DirTree where
  | node (files : List String) (subdirs : List (String × DirTree))

/-- Child directory lookup by name. -/
def DirTree.find : DirTree → String → Option DirTree
  | .node _ subdirs, name => (subdirs.find? (fun p => p.1 == name)).map (fun p => p.2)

mutual
/-- `os.walk` combined with the inner `for filename in filenames` loop,
top-down: for every yielded (dirpath, dirnames, filenames) triple, the
joined paths `os.path.join(dirpath, filename)` in order. -/
def DirTree.walkFiles : DirTree → String → List String
  | .node files subdirs, path =>
    files.map (fun f => path ++ "/" ++ f) ++ walkFilesList subdirs path

def walkFilesList : List (String × DirTree) → String → List String
  | [], _ => []
  | (n, t) :: rest, path => DirTree.walkFiles t (path ++ "/" ++ n) ++ walkFilesList rest path
end

/-- Every file below `locale_dir/<lang>/LC_MESSAGES` in walk order, given
the tree `root` rooted at `locale_dir`; the empty list when that directory
does not exist, since `os.walk` of a missing directory yields nothing. -/
def langFiles (root : DirTree) (locale_dir lang : String) : List String :=
  match (root.find lang).bind (fun t => DirTree.find t "LC_MESSAGES") with
  | none => []
  | some t => t.walkFiles (locale_dir ++ "/" ++ lang ++ "/LC_MESSAGES")

/-- `get_po_files` (lines 108-118): for every language walk
`os.path.join(locale_dir, lang, "LC_MESSAGES")` and enqueue
`(lang, po_file)` for each file whose `splitext` extension is ".po". -/
def get_po_files (root : DirTree) (locale_dir : String) (languages : List String) :
    List (String × String) :=
  languages.flatMap (fun lang =>
    (langFiles root locale_dir lang).filterMap (fun po_file =>
      if (splitext po_file).2 = ".po" then some (lang, po_file) else none))

/-- A small concrete locale tree used for concrete evaluations:
`loc/pl/LC_MESSAGES` holds `a.po`, `b.txt` and a subdirectory `sub` with
`c.po`; there is no `de` language directory. -/
def sampleLocaleTree : DirTree :=
  .node []
    [("pl", .node []
      [("LC_MESSAGES", .node ["a.po", "b.txt"] [("sub", .node ["c.po"] [])])])]

/-! ### `load_po` (lines 43-49) -/

/-- Python `x or y` for an optional string: `None` and the empty string are
falsy. -/
def pyOrStr (a : Option String) (b : String) : String :=
  match a with
  | none => b
  | some s => if s = "" then b else s

/-- `load_po` (lines 43-49).  The babel codec is external: `sniffCharset`
is the `charset` attribute of the catalog produced by the first
`pofile.read_po(f)` pass over the file content, and `readPo content cs` is
the second `pofile.read_po` pass over the same content with `cs` as the
explicit charset argument. -/
def load_po (sniffCharset : String → Option String)
    (readPo : String → String → List Message) (content : String) : List Message :=
  readPo content (pyOrStr (sniffCharset content) "utf-8")

/-! ### Helper lemmas: replacement chain -/

theorem replaceAux_of_not_contains (pat rep : List Char) :
    ∀ (fuel : Nat) (s : List Char), containsSub s pat = false →
      replaceAux fuel s pat rep = s := by
  intro fuel
  induction fuel with
  | zero => intro s _; rfl
  | succ n ih =>
    intro s h
    cases s with
    | nil => rfl
    | cons c rest =>
      simp only [containsSub, Bool.or_eq_false_iff] at h
      simp only [replaceAux, h.1, Bool.false_eq_true, if_false]
      rw [ih rest h.2]

theorem pyReplace_of_not_contains (s pat rep : String)
    (h : containsSub s.data pat.data = false) : pyReplace s pat rep = s := by
  unfold pyReplace
  by_cases hp : pat.data.isEmpty = true
  · rw [if_pos hp]
  · rw [if_neg hp, replaceAux_of_not_contains pat.data rep.data s.data.length s.data h]

theorem foldl_pyReplace_of_not_contains (t : String) :
    ∀ l : List (String × String),
      (∀ p ∈ l, containsSub t.data p.1.data = false) →
      l.foldl (fun acc p => pyReplace acc p.1 p.2) t = t := by
  intro l
  induction l with
  | nil => intro _; rfl
  | cons p rest ih =>
    intro h
    simp only [List.foldl_cons]
    rw [pyReplace_of_not_contains t p.1 p.2 (h p (List.mem_cons_self p rest))]
    exact ih (fun q hq => h q (List.mem_cons_of_mem p hq))

/-! ### Helper lemmas: filesystem primitives -/

theorem lookupFile_cons_self (l : List (String × String)) (p c : String) :
    lookupFile ((p, c) :: l) p = some c := by
  simp [lookupFile]

theorem lookupFile_cons_ne (l : List (String × String)) (p c q : String) (h : p ≠ q) :
    lookupFile ((p, c) :: l) q = lookupFile l q := by
  simp [lookupFile, h]

theorem lookupFile_removeAll_self (l : List (String × String)) (p : String) :
    lookupFile (removeAll l p) p = none := by
  induction l with
  | nil => rfl
  | cons e rest ih =>
    by_cases h : e.1 = p
    · simp [removeAll, h, ih]
    · simp [removeAll, h, lookupFile, ih]

theorem lookupFile_removeAll_ne (l : List (String × String)) (p q : String) (h : p ≠ q) :
    lookupFile (removeAll l p) q = lookupFile l q := by
  induction l with
  | nil => rfl
  | cons e rest ih =>
    simp only [removeAll, lookupFile]
    by_cases he : e.1 = p
    · rw [if_pos he, ih, if_neg (fun hq => h (he ▸ hq))]
    · rw [if_neg he]
      simp only [lookupFile]
      by_cases hq : e.1 = q
      · rw [if_pos hq, if_pos hq]
      · rw [if_neg hq, if_neg hq, ih]

theorem getFile_setFile_self (fs : FS) (p c : String) :
    (fs.setFile p c).getFile p = some c :=
  lookupFile_cons_self fs.files p c

theorem getFile_setFile_ne (fs : FS) (p c q : String) (h : p ≠ q) :
    (fs.setFile p c).getFile q = fs.getFile q :=
  lookupFile_cons_ne fs.files p c q h

theorem getFile_removeFile_self (fs : FS) (p : String) :
    (fs.removeFile p).getFile p = none :=
  lookupFile_removeAll_self fs.files p

theorem getFile_removeFile_ne (fs : FS) (p q : String) (h : p ≠ q) :
    (fs.removeFile p).getFile q = fs.getFile q :=
  lookupFile_removeAll_ne fs.files p q h

/-! ### Helper lemmas: paths -/

theorem lastIdxOf_append_none (xs ys : List Char) (c : Char)
    (h : lastIdxOf ys c = none) : lastIdxOf (xs ++ ys) c = lastIdxOf xs c := by
  induction xs with
  | nil => simpa using h
  | cons x rest ih =>
    show (match lastIdxOf (rest ++ ys) c with
          | some k => some (k + 1)
          | none => if x = c then some 0 else none) =
        (match lastIdxOf rest c with
          | some k => some (k + 1)
          | none => if x = c then some 0 else none)
    rw [ih]

theorem lastIdxOf_lt_length (cs : List Char) (c : Char) (k : Nat)
    (h : lastIdxOf cs c = some k) : k < cs.length := by
  induction cs generalizing k with
  | nil => simp [lastIdxOf] at h
  | cons x rest ih =>
    simp only [lastIdxOf] at h
    cases hr : lastIdxOf rest c with
    | some m =>
      rw [hr] at h
      simp only [Option.some.injEq] at h
      have := ih m hr
      simp only [List.length_cons]
      omega
    | none =>
      rw [hr] at h
      by_cases hx : x = c
      · rw [if_pos hx] at h
        simp only [Option.some.injEq] at h
        simp only [List.length_cons]
        omega
      · rw [if_neg hx] at h
        exact absurd h (by simp)

theorem slashSplitIdx_le_length (cs : List Char) : slashSplitIdx cs ≤ cs.length := by
  unfold slashSplitIdx
  cases h : lastIdxOf cs '/' with
  | none => exact Nat.zero_le _
  | some k => exact lastIdxOf_lt_length cs '/' k h

/-- Appending ".tmp" (which holds no slash) does not move the split point. -/
theorem slashSplitIdx_append_tmp (cs : List Char) :
    slashSplitIdx (cs ++ ".tmp".data) = slashSplitIdx cs := by
  unfold slashSplitIdx
  rw [lastIdxOf_append_none cs ".tmp".data '/' rfl]

/-- The temporary file is a sibling of the target: same parent directory. -/
theorem dirname_append_tmp (p : String) : dirname (p ++ ".tmp") = dirname p := by
  show (⟨dirnameAux (p ++ ".tmp").data⟩ : String) = ⟨dirnameAux p.data⟩
  rw [String.data_append]
  unfold dirnameAux
  rw [slashSplitIdx_append_tmp,
    List.take_append_of_le_length (slashSplitIdx_le_length p.data)]

/-- A path never equals its own temporary sibling. -/
theorem ne_append_tmp (p : String) : p ≠ p ++ ".tmp" := by
  intro h
  have hlen := congrArg String.length h
  rw [String.length_append] at hlen
  have h4 : (".tmp" : String).length = 4 := rfl
  omega

/-! ### Helper lemmas: the save step -/

theorem dump_po_ok (fs : FS) (filename content : String)
    (hdir : fs.pathExists (dirname filename) = true) :
    dump_po fs filename (.ok content) =
      ((fs.setFile filename "").setFile filename content, none) := by
  simp only [dump_po, hdir, if_true, dump_write]

theorem dump_po_error (fs : FS) (filename : String) (e : PyErr)
    (hdir : fs.pathExists (dirname filename) = true) :
    dump_po fs filename (.error e) = (fs.setFile filename "", some e) := by
  simp only [dump_po, hdir, if_true, dump_write]

/-- Successful save, unrolled: write the serialized content to the
temporary sibling, then rename it onto the target. -/
theorem save_catalog_ok_eq (fs : FS) (po_file content : String)
    (hdir : fs.pathExists (dirname po_file) = true) :
    save_catalog fs po_file (.ok content) =
      ((((fs.setFile (po_file ++ ".tmp") "").setFile (po_file ++ ".tmp") content).removeFile
          (po_file ++ ".tmp")).setFile po_file content, none) := by
  have hdir2 : fs.pathExists (dirname (po_file ++ ".tmp")) = true := by
    rw [dirname_append_tmp]; exact hdir
  simp only [save_catalog, dump_po_ok fs (po_file ++ ".tmp") content hdir2, os_replace,
    getFile_setFile_self]

/-- Failed save, unrolled: the truncated temporary file is removed again
and the original error propagates. -/
theorem save_catalog_error_eq (fs : FS) (po_file : String) (e : PyErr)
    (hdir : fs.pathExists (dirname po_file) = true) :
    save_catalog fs po_file (.error e) =
      ((fs.setFile (po_file ++ ".tmp") "").removeFile (po_file ++ ".tmp"), some e) := by
  have hdir2 : fs.pathExists (dirname (po_file ++ ".tmp")) = true := by
    rw [dirname_append_tmp]; exact hdir
  simp only [save_catalog, dump_po_error fs (po_file ++ ".tmp") e hdir2, os_remove,
    getFile_setFile_self]

/-- Successful save: the serialized content lands at `po_file`, the
temporary file is gone, every other path is untouched, no error. -/
theorem save_catalog_ok (fs : FS) (po_file content : String)
    (hdir : fs.pathExists (dirname po_file) = true) :
    (save_catalog fs po_file (.ok content)).2 = none ∧
    (save_catalog fs po_file (.ok content)).1.getFile po_file = some content ∧
    (save_catalog fs po_file (.ok content)).1.getFile (po_file ++ ".tmp") = none ∧
    ∀ q, q ≠ po_file → q ≠ po_file ++ ".tmp" →
      (save_catalog fs po_file (.ok content)).1.getFile q = fs.getFile q := by
  have hne := ne_append_tmp po_file
  rw [save_catalog_ok_eq fs po_file content hdir]
  refine ⟨rfl, ?_, ?_, ?_⟩
  · exact getFile_setFile_self _ _ _
  · rw [getFile_setFile_ne _ _ _ _ hne, getFile_removeFile_self]
  · intro q hq1 hq2
    rw [getFile_setFile_ne _ _ _ _ (Ne.symm hq1),
      getFile_removeFile_ne _ _ _ (Ne.symm hq2),
      getFile_setFile_ne _ _ _ _ (Ne.symm hq2),
      getFile_setFile_ne _ _ _ _ (Ne.symm hq2)]

/-- Failed save: the temporary file is removed again, the target file and
every other path keep their old content, and the original error
propagates. -/
theorem save_catalog_error (fs : FS) (po_file : String) (e : PyErr)
    (hdir : fs.pathExists (dirname po_file) = true) :
    (save_catalog fs po_file (.error e)).2 = some e ∧
    (save_catalog fs po_file (.error e)).1.getFile (po_file ++ ".tmp") = none ∧
    ∀ q, q ≠ po_file ++ ".tmp" →
      (save_catalog fs po_file (.error e)).1.getFile q = fs.getFile q := by
  rw [save_catalog_error_eq fs po_file e hdir]
  refine ⟨rfl, ?_, ?_⟩
  · exact getFile_removeFile_self _ _
  · intro q hq
    rw [getFile_removeFile_ne _ _ _ (Ne.symm hq), getFile_setFile_ne _ _ _ _ (Ne.symm hq)]

/-! ### Helper lemmas: the entry loop -/

theorem step_msg_skip (backend : String → String) (msg : Message)
    (h : msg.string ≠ "" ∨ msg.id = "") : step_msg backend msg = (msg, false) := by
  unfold step_msg
  rw [if_pos h]

theorem step_msg_translate (backend : String → String) (msg : Message)
    (hs : msg.string = "") (hi : msg.id ≠ "") :
    step_msg backend msg = ({ msg with string := backend msg.id }, true) := by
  unfold step_msg
  rw [if_neg (by
    intro hc
    cases hc with
    | inl h => exact h hs
    | inr h => exact hi h)]

theorem translate_catalog_all_skip (backend : String → String) (cat : List Message)
    (h : ∀ m ∈ cat, m.string ≠ "" ∨ m.id = "") :
    translate_catalog backend cat = cat.map (fun m => (m, false)) := by
  unfold translate_catalog
  induction cat with
  | nil => rfl
  | cons m rest ih =>
    rw [List.map_cons, List.map_cons,
      step_msg_skip backend m (h m (List.mem_cons_self m rest)),
      ih (fun q hq => h q (List.mem_cons_of_mem m hq))]

/-! ### Helper lemmas: makedirs ancestors -/

theorem mem_withAncestors_self (d : String) (hd : d ≠ "") :
    d ∈ withAncestors d.length d := by
  have hlen : d.length ≠ 0 := by
    intro h0
    apply hd
    apply String.ext
    have : d.data.length = 0 := h0
    exact List.length_eq_zero.mp this
  obtain ⟨n, hn⟩ : ∃ n, d.length = n + 1 := ⟨d.length - 1, by omega⟩
  rw [hn]
  unfold withAncestors
  by_cases hcase : dirname d = d ∨ dirname d = ""
  · simp [hcase]
  · simp [hcase]

/-! ## Claim theorems -/

/-- C1: every save performed by the pipeline (whose catalog paths always
have an existing parent directory, since they were discovered there) first
serializes to the temporary sibling `po_file + ".tmp"` and atomically
renames it onto the target; on success the target holds the serialized
content and the temporary file is gone, while if serialization or the
temporary write fails the temporary file is removed, the original file at
the target path is unchanged, and the error propagates to the caller. -/
theorem c1_atomic_save (fs : FS) (po_file : String) (ser : Except PyErr String)
    (hdir : fs.pathExists (dirname po_file) = true) :
    (save_catalog fs po_file ser).1.getFile (po_file ++ ".tmp") = none ∧
    (∀ s, ser = .ok s → (save_catalog fs po_file ser).2 = none ∧
      (save_catalog fs po_file ser).1.getFile po_file = some s) ∧
    (∀ e, ser = .error e → (save_catalog fs po_file ser).2 = some e ∧
      (save_catalog fs po_file ser).1.getFile po_file = fs.getFile po_file) := by
  cases ser with
  | ok s =>
    have h := save_catalog_ok fs po_file s hdir
    refine ⟨h.2.2.1, ?_, ?_⟩
    · intro s2 hs
      cases hs
      exact ⟨h.1, h.2.1⟩
    · intro e he
      cases he
  | error e =>
    have h := save_catalog_error fs po_file e hdir
    refine ⟨h.2.1, ?_, ?_⟩
    · intro s hs
      cases hs
    · intro e2 he
      cases he
      exact ⟨h.1, h.2.2 po_file (ne_append_tmp po_file)⟩

/-- Witness for C1 at a concrete state: a failing serialization leaves
"d/a.po" holding "old", removes the temporary file, and propagates the
error. -/
theorem c1_atomic_save_witness :
    (save_catalog ⟨["d"], [("d/a.po", "old")]⟩ "d/a.po" (.error (.writeError "boom"))).2 =
      some (.writeError "boom") ∧
    (save_catalog ⟨["d"], [("d/a.po", "old")]⟩ "d/a.po"
      (.error (.writeError "boom"))).1.getFile "d/a.po" = some "old" ∧
    (save_catalog ⟨["d"], [("d/a.po", "old")]⟩ "d/a.po"
      (.error (.writeError "boom"))).1.getFile ("d/a.po" ++ ".tmp") = none := by
  have h := c1_atomic_save ⟨["d"], [("d/a.po", "old")]⟩ "d/a.po"
    (.error (.writeError "boom")) (by decide)
  have he := h.2.2 (.writeError "boom") rfl
  exact ⟨he.1, he.2.trans (by decide), h.1⟩

/-- C2: the entry loop skips a message — no backend call, message left
unchanged — exactly when the message already has a non-empty translated
string or its id is empty.  `step_msg` is the loop body and its Bool
records whether the backend was called. -/
theorem c2_skip_policy (backend : String → String) (msg : Message) :
    step_msg backend msg = (msg, false) ↔ (msg.string ≠ "" ∨ msg.id = "") := by
  by_cases h : msg.string ≠ "" ∨ msg.id = ""
  · simp only [h, iff_true]
    exact step_msg_skip backend msg h
  · simp only [h, iff_false]
    push_neg at h
    rw [step_msg_translate backend msg h.1 h.2]
    intro hc
    have := congrArg (fun r => r.2) hc
    simp at this

/-- C3 counterexample: with a backend whose post-processed result is the
empty string, the single entry keeps its (empty) translated string — no
entry's translated string changes value — yet the catalog is saved: the
file content goes from "old" to the serialized "new". -/
theorem c3_counterexample :
    (FS.getFile ⟨["d"], [("d/a.po", "old")]⟩ "d/a.po" = some "old") ∧
    (process_file (fun _ => "") (fun _ => .ok "new") ⟨["d"], [("d/a.po", "old")]⟩
      "d/a.po" [⟨"x", ""⟩]).2.1 = [⟨"x", ""⟩] ∧
    (process_file (fun _ => "") (fun _ => .ok "new") ⟨["d"], [("d/a.po", "old")]⟩
      "d/a.po" [⟨"x", ""⟩]).1.getFile "d/a.po" = some "new" := by
  decide

/-- C3 (amended): the file is rewritten only when at least one entry was
submitted for translation (its translated string re-assigned — normally a
change, though the assigned string may equal the previous empty value); a
catalog in which every entry was skipped terminates without any write,
leaving the filesystem untouched. -/
theorem c3_write_gating (backend : String → String)
    (serialize : List Message → Except PyErr String)
    (fs : FS) (po_file : String) (cat : List Message) :
    ((∀ m ∈ cat, m.string ≠ "" ∨ m.id = "") →
      process_file backend serialize fs po_file cat = (fs, cat, false, none)) ∧
    ((∃ m ∈ cat, m.string = "" ∧ m.id ≠ "") →
      (process_file backend serialize fs po_file cat).2.2.1 = true) := by
  constructor
  · intro h
    unfold process_file
    rw [translate_catalog_all_skip backend cat h]
    simp [List.map_map, List.any_map, Function.comp_def]
  · rintro ⟨m, hm, hs, hi⟩
    unfold process_file translate_catalog
    have hany : (cat.map (step_msg backend)).any (fun r => r.2) = true := by
      rw [List.any_eq_true]
      refine ⟨step_msg backend m, List.mem_map_of_mem _ hm, ?_⟩
      rw [step_msg_translate backend m hs hi]
    simp [hany]

/-- Witness for C3 (amended): an all-skipped catalog is returned untouched
with no write, and a translatable entry sets the dirty flag. -/
theorem c3_write_gating_witness :
    (process_file (fun s => s) (fun _ => .ok "c") ⟨["d"], [("d/a.po", "old")]⟩
      "d/a.po" [⟨"x", "done"⟩, ⟨"", ""⟩] =
      (⟨["d"], [("d/a.po", "old")]⟩, [⟨"x", "done"⟩, ⟨"", ""⟩], false, none)) ∧
    (process_file (fun s => s) (fun _ => .ok "c") ⟨["d"], [("d/a.po", "old")]⟩
      "d/a.po" [⟨"y", ""⟩]).2.2.1 = true := by
  constructor
  · exact (c3_write_gating (fun s => s) (fun _ => .ok "c") ⟨["d"], [("d/a.po", "old")]⟩
      "d/a.po" [⟨"x", "done"⟩, ⟨"", ""⟩]).1 (by decide)
  · exact (c3_write_gating (fun s => s) (fun _ => .ok "c") ⟨["d"], [("d/a.po", "old")]⟩
      "d/a.po" [⟨"y", ""⟩]).2 ⟨⟨"y", ""⟩, by decide, by decide, by decide⟩

/-- C4: discovery enqueues `(lang, po_file)` exactly for the files below
`locale_dir/<lang>/LC_MESSAGES` whose `splitext` extension is ".po" (every
other file is ignored), and a language whose subdirectory does not exist
contributes no Work Items (the walk yields nothing; there is no error). -/
theorem c4_discovery (root : DirTree) (locale_dir : String) (langs : List String)
    (lang pf : String) :
    ((lang, pf) ∈ get_po_files root locale_dir langs ↔
      lang ∈ langs ∧ pf ∈ langFiles root locale_dir lang ∧ (splitext pf).2 = ".po") ∧
    ((root.find lang).bind (fun t => DirTree.find t "LC_MESSAGES") = none →
      langFiles root locale_dir lang = [] ∧ get_po_files root locale_dir [lang] = []) := by
  constructor
  · unfold get_po_files
    rw [List.mem_flatMap]
    constructor
    · rintro ⟨l, hl, hmem⟩
      rw [List.mem_filterMap] at hmem
      obtain ⟨q, hq, hif⟩ := hmem
      by_cases hext : (splitext q).2 = ".po"
      · rw [if_pos hext] at hif
        simp only [Option.some.injEq, Prod.mk.injEq] at hif
        obtain ⟨rfl, rfl⟩ := hif
        exact ⟨hl, hq, hext⟩
      · rw [if_neg hext] at hif
        exact absurd hif (by simp)
    · rintro ⟨hlang, hpf, hext⟩
      exact ⟨lang, hlang, List.mem_filterMap.mpr ⟨pf, hpf, by rw [if_pos hext]⟩⟩
  · intro h
    have hlf : langFiles root locale_dir lang = [] := by
      unfold langFiles
      rw [h]
    refine ⟨hlf, ?_⟩
    unfold get_po_files
    simp [hlf]

/-- Witness for C4 on the sample tree: "a.po" (with extension ".po") is
enqueued for "pl", and the missing "de" directory contributes nothing. -/
theorem c4_discovery_witness :
    ("pl", "loc/pl/LC_MESSAGES/a.po") ∈ get_po_files sampleLocaleTree "loc" ["pl", "de"] ∧
    langFiles sampleLocaleTree "loc" "de" = [] ∧
    get_po_files sampleLocaleTree "loc" ["de"] = [] := by
  have h1 := (c4_discovery sampleLocaleTree "loc" ["pl", "de"] "pl"
    "loc/pl/LC_MESSAGES/a.po").1
  have h2 := (c4_discovery sampleLocaleTree "loc" ["de"] "de" "x").2 rfl
  exact ⟨h1.mpr ⟨by decide, by decide, by decide⟩, h2.1, h2.2⟩

/-- C5: the backend call raises `SphinxTranslateException` carrying the
response status code and reason exactly when the transport-level status is
not 200; on status 200 it returns the response body text without
raising. -/
theorem c5_transport_status (resp : HttpResponse) :
    (translate_entry resp = .error (mkException resp.status resp.reason) ↔
      resp.status ≠ 200) ∧
    (resp.status = 200 → translate_entry resp = .ok resp.body) := by
  unfold translate_entry
  by_cases h : resp.status = 200
  · simp [h]
  · simp [h]

/-- Witness for C5: status 404 raises with "404: Not Found"; status 200
returns the body. -/
theorem c5_transport_status_witness :
    translate_entry ⟨404, "Not Found", "b"⟩ = .error (mkException 404 "Not Found") ∧
    translate_entry ⟨200, "OK", "b"⟩ = .ok "b" :=
  ⟨(c5_transport_status ⟨404, "Not Found", "b"⟩).1.mpr (by decide),
   (c5_transport_status ⟨200, "OK", "b"⟩).2 rfl⟩

/-- C6: when the expected div element is absent the xpath result is empty,
the post-processor returns the empty string, the entry's translated string
is set to that empty string, and the catalog is still counted as needing a
write: the file is saved. -/
theorem c6_absent_element (fs : FS) (po_file msgId content : String)
    (serialize : List Message → Except PyErr String)
    (hid : msgId ≠ "") (hdir : fs.pathExists (dirname po_file) = true)
    (hser : serialize [⟨msgId, ""⟩] = .ok content) :
    parse_translated_entry [] = "" ∧
    (process_file (fun _ => parse_translated_entry []) serialize fs po_file
      [⟨msgId, ""⟩]).2.1 = [⟨msgId, ""⟩] ∧
    (process_file (fun _ => parse_translated_entry []) serialize fs po_file
      [⟨msgId, ""⟩]).2.2.1 = true ∧
    (process_file (fun _ => parse_translated_entry []) serialize fs po_file
      [⟨msgId, ""⟩]).2.2.2 = none ∧
    (process_file (fun _ => parse_translated_entry []) serialize fs po_file
      [⟨msgId, ""⟩]).1.getFile po_file = some content := by
  have hstep : step_msg (fun _ => parse_translated_entry []) ⟨msgId, ""⟩ =
      (⟨msgId, ""⟩, true) :=
    step_msg_translate (fun _ => parse_translated_entry []) ⟨msgId, ""⟩ rfl hid
  have hsave := save_catalog_ok fs po_file content hdir
  have hred : process_file (fun _ => parse_translated_entry []) serialize fs po_file
      [⟨msgId, ""⟩] =
      ((save_catalog fs po_file (.ok content)).1, [⟨msgId, ""⟩], true,
        (save_catalog fs po_file (.ok content)).2) := by
    simp only [process_file, translate_catalog, List.map_cons, List.map_nil, hstep,
      List.any_cons, List.any_nil, Bool.or_false, hser, if_true]
  rw [hred]
  exact ⟨rfl, rfl, rfl, hsave.1, hsave.2.1⟩

/-- Witness for C6 at a concrete state. -/
theorem c6_absent_element_witness :
    parse_translated_entry [] = "" ∧
    (process_file (fun _ => parse_translated_entry []) (fun _ => .ok "SER") ⟨["d"], []⟩
      "d/a.po" [⟨"Hello", ""⟩]).2.1 = [⟨"Hello", ""⟩] ∧
    (process_file (fun _ => parse_translated_entry []) (fun _ => .ok "SER") ⟨["d"], []⟩
      "d/a.po" [⟨"Hello", ""⟩]).2.2.1 = true ∧
    (process_file (fun _ => parse_translated_entry []) (fun _ => .ok "SER") ⟨["d"], []⟩
      "d/a.po" [⟨"Hello", ""⟩]).2.2.2 = none ∧
    (process_file (fun _ => parse_translated_entry []) (fun _ => .ok "SER") ⟨["d"], []⟩
      "d/a.po" [⟨"Hello", ""⟩]).1.getFile "d/a.po" = some "SER" :=
  c6_absent_element ⟨["d"], []⟩ "d/a.po" "Hello" "SER" (fun _ => .ok "SER")
    (by decide) (by decide) rfl

/-- C7: the correction sequence is the identity on any text containing none
of its fourteen target tokens. -/
theorem c7_corrections_identity (t : String)
    (h : ∀ p ∈ corrections, containsSub t.data p.1.data = false) :
    applyCorrections t = t :=
  foldl_pyReplace_of_not_contains t corrections h

/-- Witness for C7 on a clean text. -/
theorem c7_corrections_identity_witness : applyCorrections "hello world" = "hello world" :=
  c7_corrections_identity "hello world" (by decide)

/-- C8: the correction sequence maps "foo + bar" to "foo bar", "C #" to
"C#", and ": doc: `x`" to ":doc:`x`". -/
theorem c8_correction_examples :
    applyCorrections "foo + bar" = "foo bar" ∧
    applyCorrections "C #" = "C#" ∧
    applyCorrections ": doc: `x`" = ":doc:`x`" := by
  refine ⟨?_, ?_, ?_⟩ <;> rfl

/-- C9 counterexample: for a bare filename the parent "directory" is the
empty string, which never exists, so `dump_po` calls `os.makedirs("")`,
which raises `FileNotFoundError`: nothing is created and nothing is
written — the claim fails for a path with no directory component. -/
theorem c9_counterexample :
    (dump_po ⟨[], []⟩ "file.po" (.ok "x")).2 = some (.fileNotFound "") ∧
    (dump_po ⟨[], []⟩ "file.po" (.ok "x")).1 = ⟨[], []⟩ := by
  decide

/-- C9 (amended): for every path with a non-empty directory component
whose parent directory does not exist, the parent directory is created
before the serialized catalog is written; for a bare filename the
`os.makedirs("")` call raises instead. -/
theorem c9_makedirs (fs : FS) (filename content : String)
    (hne : dirname filename ≠ "")
    (hmiss : fs.pathExists (dirname filename) = false) :
    (dump_po fs filename (.ok content)).2 = none ∧
    (dump_po fs filename (.ok content)).1.pathExists (dirname filename) = true ∧
    (dump_po fs filename (.ok content)).1.getFile filename = some content := by
  have hred : dump_po fs filename (.ok content) =
      (FS.setFile (FS.setFile ⟨fs.dirs ++
          withAncestors (dirname filename).length (dirname filename), fs.files⟩
        filename "") filename content, none) := by
    simp only [dump_po, hmiss, Bool.false_eq_true, if_false, os_makedirs, if_neg hne,
      dump_write]
  rw [hred]
  refine ⟨rfl, ?_, getFile_setFile_self _ _ _⟩
  show (_ || _) = true
  rw [Bool.or_eq_true]
  left
  show List.contains (fs.dirs ++ _) _ = true
  exact List.elem_eq_true_of_mem
    (List.mem_append_right _ (mem_withAncestors_self _ hne))

/-- Witness for C9 (amended) at a concrete state. -/
theorem c9_makedirs_witness :
    (dump_po ⟨[], []⟩ "sub/file.po" (.ok "x")).2 = none ∧
    (dump_po ⟨[], []⟩ "sub/file.po" (.ok "x")).1.pathExists (dirname "sub/file.po") = true ∧
    (dump_po ⟨[], []⟩ "sub/file.po" (.ok "x")).1.getFile "sub/file.po" = some "x" :=
  c9_makedirs ⟨[], []⟩ "sub/file.po" "x" (by decide) (by decide)

/-- C10: when the first parse reports no charset, the file is decoded with
the default "utf-8"; when it reports a (non-empty) charset, the file is
re-read and decoded with exactly that charset. -/
theorem c10_charset (sniffCharset : String → Option String)
    (readPo : String → String → List Message) (content : String) :
    (sniffCharset content = none →
      load_po sniffCharset readPo content = readPo content "utf-8") ∧
    (∀ c, sniffCharset content = some c → c ≠ "" →
      load_po sniffCharset readPo content = readPo content c) := by
  constructor
  · intro h
    unfold load_po
    rw [h]
    rfl
  · intro c hc hne
    unfold load_po
    rw [hc]
    show readPo content (if c = "" then "utf-8" else c) = readPo content c
    rw [if_neg hne]

/-- Witness for C10: a codec reporting no charset decodes with "utf-8";
one reporting "latin-1" decodes with "latin-1". -/
theorem c10_charset_witness :
    load_po (fun _ => none) (fun content cs => [⟨cs, content⟩]) "payload" =
      [⟨"utf-8", "payload"⟩] ∧
    load_po (fun _ => some "latin-1") (fun content cs => [⟨cs, content⟩]) "payload" =
      [⟨"latin-1", "payload"⟩] :=
  ⟨(c10_charset (fun _ => none) (fun content cs => [⟨cs, content⟩]) "payload").1 rfl,
   (c10_charset (fun _ => some "latin-1") (fun content cs => [⟨cs, content⟩]) "payload").2
     "latin-1" rfl (by decide)⟩

end SphinxTr
